import Mathlib

/-!
Shallow embedding of the network anomaly-detection repository.

Two components are embedded:
* the z-score anomaly detector of the network-data route
  (`POST /api/network-data` and its module state), and
* the `DataManager` class (source registry / lifecycle coordinator).

JavaScript numbers are modelled as real numbers, `Math.sqrt` as
`Real.sqrt`, `Math.round` as rounding half towards positive infinity.
The coordinator treats data / anomaly / status payloads opaquely, so the
coordinator state is polymorphic in those payload types; subscriber
callback lists are modelled by event logs (one entry per dispatched
event).
-/

/-- JS `Array.prototype.slice(-n)`: the last `n` elements of a list (all of
them when the list is shorter than `n`). -/
def lastN (n : Nat) (l : List α) : List α := l.drop (l.length - n)

/-- `push` one item, then `shift` away the oldest entry when the bound is
exceeded (the bounded-history idiom of the coordinator's handlers). -/
def pushBounded (cap : Nat) (l : List α) (x : α) : List α :=
  let h := l ++ [x]
  if h.length > cap then h.tail else h

namespace AnomalyRoute

/-- The four metrics the route's detector tracks (`metrics` array in
`detectAnomalies`). -/
inductive Metric where
  | packetsPerSecond
  | bandwidth
  | activeConnections
  | errorRate
deriving DecidableEq

/-- `NetworkDataSchema`: one validated sample body. -/
structure NetworkData where
  timestamp : ℝ
  packetsPerSecond : ℝ
  bandwidth : ℝ
  activeConnections : ℝ
  errorRate : ℝ

/-- Field projection `data[metric]`. -/
def NetworkData.get (d : NetworkData) : Metric → ℝ
  | .packetsPerSecond => d.packetsPerSecond
  | .bandwidth => d.bandwidth
  | .activeConnections => d.activeConnections
  | .errorRate => d.errorRate

def ZSCORE_THRESHOLD : ℝ := 3.0

/-- `values.reduce((sum, val) => sum + val, 0) / values.length`. -/
noncomputable def mean (values : List ℝ) : ℝ := values.sum / values.length

/-- The argument of `Math.sqrt` in the route's `stdDev`:
`values.reduce((sum, val) => sum + Math.pow(val - mean, 2), 0) / values.length`. -/
noncomputable def varOf (values : List ℝ) : ℝ :=
  ((values.map fun v => (v - mean values) ^ 2).sum) / values.length

noncomputable def stdDev (values : List ℝ) : ℝ := Real.sqrt (varOf values)

/-- `Math.abs((currentData[metric] - mean) / stdDev)`. -/
noncomputable def zScoreOf (m sd v : ℝ) : ℝ := |(v - m) / sd|

inductive Severity where
  | info
  | warning
  | critical
deriving DecidableEq

/-- Height of a severity in the info < warning < critical ladder. -/
def Severity.rank : Severity → Nat
  | .info => 0
  | .warning => 1
  | .critical => 2

/-- The route's severity ladder: `critical` above twice the threshold,
`warning` above 1.5 times the threshold, `info` otherwise. -/
noncomputable def severityOf (z : ℝ) : Severity :=
  if z > ZSCORE_THRESHOLD * 2 then .critical
  else if z > ZSCORE_THRESHOLD * 1.5 then .warning
  else .info

/-- JS `Math.round`: round half towards positive infinity. -/
noncomputable def jsRound (x : ℝ) : ℤ := ⌊x + 1 / 2⌋

/-- Anomaly type fired for each metric (the `switch` in `detectAnomalies`). -/
def Metric.anomalyType : Metric → String
  | .packetsPerSecond => "traffic_spike"
  | .bandwidth => "bandwidth_anomaly"
  | .activeConnections => "connection_flood"
  | .errorRate => "packet_drop"

structure AnomalyMetrics where
  threshold : ℤ
  actualValue : ℝ
  deviation : ℤ

/-- `AnomalySchema` as the detector fills it (the human-readable
`description` string, pure numeric formatting, is elided). -/
structure Anomaly where
  timestamp : ℝ
  type : String
  severity : Severity
  source : String
  metrics : AnomalyMetrics

/-- The body of the per-metric loop of `detectAnomalies`: `none` models
`continue` / no push, `some a` models `anomalies.push(a)`. -/
noncomputable def detectMetric (networkDataHistory : List NetworkData)
    (currentData : NetworkData) (m : Metric) : Option Anomaly :=
  let values := (lastN 30 networkDataHistory).map fun d => d.get m
  let meanV := mean values
  let sd := stdDev values
  if sd < 0.1 then none
  else
    let zScore := zScoreOf meanV sd (currentData.get m)
    if zScore > ZSCORE_THRESHOLD then
      some { timestamp := currentData.timestamp
             type := m.anomalyType
             severity := severityOf zScore
             source := "Anomaly Detection Engine"
             metrics := { threshold := jsRound meanV
                          actualValue := currentData.get m
                          deviation := |jsRound ((currentData.get m - meanV) / meanV * 100)| } }
    else none

/-- `detectAnomalies(currentData)`, reading the module-level
`networkDataHistory` (which, at the call site in `POST`, already contains
`currentData`). -/
noncomputable def detectAnomalies (networkDataHistory : List NetworkData)
    (currentData : NetworkData) : List Anomaly :=
  if networkDataHistory.length < 10 then []
  else
    [Metric.packetsPerSecond, Metric.bandwidth,
     Metric.activeConnections, Metric.errorRate].filterMap
      (detectMetric networkDataHistory currentData)

/-- The route module's mutable state: `networkDataHistory` and
`detectedAnomalies`. -/
structure RouteState where
  networkDataHistory : List NetworkData
  detectedAnomalies : List Anomaly

def RouteState.empty : RouteState := ⟨[], []⟩

/-- The `POST` handler on a validated body: push to history, truncate to the
last 1000, detect anomalies, append them (truncating to the last 100), and
respond with `anomaliesDetected` (the 400 path for invalid bodies is outside
the model, `body` being already validated). -/
noncomputable def POST (st : RouteState) (body : NetworkData) : RouteState × Nat :=
  let hist0 := st.networkDataHistory ++ [body]
  let hist := if hist0.length > 1000 then lastN 1000 hist0 else hist0
  let anomalies := detectAnomalies hist body
  let det :=
    if anomalies.length > 0 then
      let d := st.detectedAnomalies ++ anomalies
      if d.length > 100 then lastN 100 d else d
    else st.detectedAnomalies
  (⟨hist, det⟩, anomalies.length)

/-- Feed a sequence of validated samples through `POST`. -/
noncomputable def runPosts (st : RouteState) (samples : List NetworkData) : RouteState :=
  samples.foldl (fun s b => (POST s b).1) st

/-- Modelled from the spec: the arithmetic mean of the window values. -/
noncomputable def specMean (values : List ℝ) : ℝ := values.sum / values.length

/-- Modelled from the spec: the population standard deviation of the window
values (divide by N, not N − 1). -/
noncomputable def specPopStdDev (values : List ℝ) : ℝ :=
  Real.sqrt (((values.map fun v => (v - specMean values) ^ 2).sum) / values.length)

/-- Modelled from the spec: per-metric z-score detection over an explicitly
given window of samples — the comparator used to settle which window the
route's detector actually feeds to μ and σ. -/
noncomputable def specDetectMetric (win : List NetworkData) (b : NetworkData)
    (m : Metric) : Option Anomaly :=
  let values := win.map fun d => d.get m
  let mu := specMean values
  let sigma := specPopStdDev values
  if sigma < 0.1 then none
  else
    let z := |(b.get m - mu) / sigma|
    if z > 3.0 then
      some { timestamp := b.timestamp
             type := m.anomalyType
             severity := if z > 6.0 then .critical
                         else if z > 4.5 then .warning
                         else .info
             source := "Anomaly Detection Engine"
             metrics := { threshold := jsRound mu
                          actualValue := b.get m
                          deviation := |jsRound ((b.get m - mu) / mu * 100)| } }
    else none

/-- Modelled from the spec: detection over all four metrics for a given
window. -/
noncomputable def specDetect (win : List NetworkData) (b : NetworkData) : List Anomaly :=
  [Metric.packetsPerSecond, Metric.bandwidth,
   Metric.activeConnections, Metric.errorRate].filterMap (specDetectMetric win b)

/-- A concrete in-range sample: `packetsPerSecond = 500`, the other metrics
constant. -/
noncomputable def s500 : NetworkData := ⟨0, 500, 50, 100, 1⟩

/-- A concrete outlier sample: `packetsPerSecond = 2000`, the other metrics
as in `s500`. -/
noncomputable def sFinal : NetworkData := ⟨31, 2000, 50, 100, 1⟩

/-- Thirty constant in-range samples. -/
noncomputable def hist30 : List NetworkData := List.replicate 30 s500

/-- The packets-per-second values of the detector's window when `sFinal`
arrives after `hist30`. -/
noncomputable def ppsVals : List ℝ :=
  (lastN 30 (hist30 ++ [sFinal])).map fun d => d.get Metric.packetsPerSecond

/-- The anomaly the route's detector emits for `sFinal` after `hist30`. -/
noncomputable def aEx : Anomaly :=
  { timestamp := sFinal.timestamp
    type := "traffic_spike"
    severity := .warning
    source := "Anomaly Detection Engine"
    metrics := { threshold := jsRound (mean ppsVals)
                 actualValue := sFinal.get Metric.packetsPerSecond
                 deviation := |jsRound ((sFinal.get Metric.packetsPerSecond - mean ppsVals)
                   / mean ppsVals * 100)| } }

end AnomalyRoute

namespace Manager

/-- The closed enumeration of source types (`DataSourceType`). -/
inductive DataSourceType where
  | pcap
  | snmp
  | netflow
  | syslog
  | simulated
deriving DecidableEq

/-- A registered producer as the coordinator observes it: its type and
whether it `isRunning()`.  `start()` / `stop()` toggle `running`;
`initialize` succeeds for every type of the closed enumeration. -/
structure Producer where
  ty : DataSourceType
  running : Bool
deriving DecidableEq

/-- `createDataSource(type)` followed by a successful `initialize`: a
producer of that type, not yet running. -/
def createDataSource (ty : DataSourceType) : Producer := ⟨ty, false⟩

/-- The `DataManager` state.  `sources` models the insertion-ordered JS
`Map`; `dataHistory` / `anomalyHistory` the two bounded histories; the four
`*Events` lists model the invocations of the registered data / anomaly /
status / error callbacks (error payloads are their message strings);
`everAdded` is a ghost counter of successful registrations, used to express
"first source ever registered". -/
structure DMState (D A S : Type) where
  sources : List (String × Producer)
  activeSource : Option String
  dataHistory : List D
  anomalyHistory : List A
  dataEvents : List D
  anomalyEvents : List A
  statusEvents : List (String × S)
  errorEvents : List (String × String)
  everAdded : Nat

def maxDataHistorySize : Nat := 3600
def maxAnomalyHistorySize : Nat := 1000

variable {D A S : Type}

/-- `this.dataSources.get(id)` (JS `Map` keys are unique, so the first
match is the entry). -/
def findSource (st : DMState D A S) (id : String) : Option Producer :=
  (st.sources.find? fun e => e.1 == id).map (·.2)

/-- `this.dataSources.has(id)`. -/
def hasSource (st : DMState D A S) (id : String) : Bool :=
  st.sources.any fun e => e.1 == id

/-- `Map.get` on a raw registry list (the list-level form of
`findSource`). -/
def lookupProducer (sources : List (String × Producer)) (id : String) : Option Producer :=
  (sources.find? fun e => e.1 == id).map (·.2)

/-- `private handleError`: notify every error callback, unconditionally. -/
def handleError (st : DMState D A S) (sourceId : String) (msg : String) : DMState D A S :=
  { st with errorEvents := st.errorEvents ++ [(sourceId, msg)] }

/-- `private handleStatusChange`: notify every status callback,
unconditionally. -/
def handleStatusChange (st : DMState D A S) (sourceId : String) (status : S) :
    DMState D A S :=
  { st with statusEvents := st.statusEvents ++ [(sourceId, status)] }

/-- `private handleData`: only when the event comes from the active source,
push to `dataHistory` (shifting on overflow) and notify the data
callbacks. -/
def handleData (st : DMState D A S) (sourceId : String) (d : D) : DMState D A S :=
  if st.activeSource = some sourceId then
    { st with dataHistory := pushBounded maxDataHistorySize st.dataHistory d
              dataEvents := st.dataEvents ++ [d] }
  else st

/-- `private handleAnomaly`: only when the event comes from the active
source, push to `anomalyHistory` (shifting on overflow) and notify the
anomaly callbacks. -/
def handleAnomaly (st : DMState D A S) (sourceId : String) (a : A) : DMState D A S :=
  if st.activeSource = some sourceId then
    { st with anomalyHistory := pushBounded maxAnomalyHistorySize st.anomalyHistory a
              anomalyEvents := st.anomalyEvents ++ [a] }
  else st

/-- `addDataSource(id, type)`: fail (error event, `false`) on a duplicate id;
otherwise create and initialize the producer, insert it, and make it active
when it is the only entry of the map (`this.dataSources.size === 1`). -/
def addDataSource (st : DMState D A S) (id : String) (ty : DataSourceType) :
    DMState D A S × Bool :=
  if hasSource st id then
    (handleError st id ("Data source with ID " ++ id ++ " already exists"), false)
  else
    let sources := st.sources ++ [(id, createDataSource ty)]
    let act := if sources.length = 1 then some id else st.activeSource
    ({ st with sources := sources, activeSource := act, everAdded := st.everAdded + 1 },
     true)

/-- `removeDataSource(id)`: `false` if unknown; otherwise stop the producer
(it is deleted right after, so only the deletion is observable), delete it,
and when it was active promote the first remaining key (or none). -/
def removeDataSource (st : DMState D A S) (id : String) : DMState D A S × Bool :=
  match findSource st id with
  | none => (st, false)
  | some _ =>
      let sources := st.sources.filter fun e => !(e.1 == id)
      let act := if st.activeSource = some id then sources.head?.map (·.1)
                 else st.activeSource
      ({ st with sources := sources, activeSource := act }, true)

/-- Set `running` of the producer registered under `id` (the observable
effect of `start()` / `stop()` on that producer). -/
def updateRunning (sources : List (String × Producer)) (id : String) (r : Bool) :
    List (String × Producer) :=
  sources.map fun e => if e.1 == id then (e.1, ⟨e.2.ty, r⟩) else e

/-- `setActiveDataSource(id)`: fail (error event, `false`) if unknown;
otherwise stop the currently active producer if it is running, set
`activeSource = id`, and start the new active producer if it is not
running. -/
def setActiveDataSource (st : DMState D A S) (id : String) : DMState D A S × Bool :=
  if hasSource st id then
    let sources1 := match st.activeSource with
      | some aid => updateRunning st.sources aid false
      | none => st.sources
    let sources2 := updateRunning sources1 id true
    ({ st with sources := sources2, activeSource := some id }, true)
  else
    (handleError st id ("Data source with ID " ++ id ++ " does not exist"), false)

/-- `startDataSource(id)`: start the producer if not running; active-ness is
not consulted. -/
def startDataSource (st : DMState D A S) (id : String) : DMState D A S × Bool :=
  if hasSource st id then
    ({ st with sources := updateRunning st.sources id true }, true)
  else
    (handleError st id ("Data source with ID " ++ id ++ " does not exist"), false)

/-- `stopDataSource(id)`: stop the producer if running. -/
def stopDataSource (st : DMState D A S) (id : String) : DMState D A S × Bool :=
  if hasSource st id then
    ({ st with sources := updateRunning st.sources id false }, true)
  else
    (handleError st id ("Data source with ID " ++ id ++ " does not exist"), false)

/-- `getDataSources()`: every registry entry with its derived
`active: id === this.activeSource` flag. -/
def getDataSources (st : DMState D A S) : List (String × Producer × Bool) :=
  st.sources.map fun e => (e.1, e.2, st.activeSource == some e.1)

/-- Number of entries `getDataSources` reports as active. -/
def countActive (st : DMState D A S) : Nat :=
  (getDataSources st).countP fun e => e.2.2

/-- The `DataManager` constructor: a fresh manager whose construction has
registered the built-in `"simulated"` source (the state once that
registration's asynchronous initialization has completed, the runtime being
a single-threaded event loop). -/
def initState (D A S : Type) : DMState D A S :=
  (addDataSource ⟨[], none, [], [], [], [], [], [], 0⟩ "simulated" .simulated).1

/-- One observable transition of the coordinator: a public operation, or a
wired producer callback firing. -/
inductive Step : DMState D A S → DMState D A S → Prop
  | add (st : DMState D A S) (id : String) (ty : DataSourceType) :
      Step st (addDataSource st id ty).1
  | remove (st : DMState D A S) (id : String) : Step st (removeDataSource st id).1
  | setActive (st : DMState D A S) (id : String) :
      Step st (setActiveDataSource st id).1
  | start (st : DMState D A S) (id : String) : Step st (startDataSource st id).1
  | stop (st : DMState D A S) (id : String) : Step st (stopDataSource st id).1
  | data (st : DMState D A S) (id : String) (d : D) : Step st (handleData st id d)
  | anomaly (st : DMState D A S) (id : String) (a : A) :
      Step st (handleAnomaly st id a)
  | status (st : DMState D A S) (id : String) (s : S) :
      Step st (handleStatusChange st id s)
  | error (st : DMState D A S) (id : String) (e : String) :
      Step st (handleError st id e)

/-- States the coordinator can reach from its constructor. -/
def Reachable (st : DMState D A S) : Prop :=
  Relation.ReflTransGen Step (initState D A S) st

end Manager

/-! ### Basic lemmas about the list helpers -/

theorem lastN_append_singleton (n : Nat) (l : List α) (x : α) :
    lastN (n + 1) (l ++ [x]) = lastN n l ++ [x] := by
  unfold lastN
  rw [List.length_append, List.length_singleton, Nat.add_sub_add_right]
  exact List.drop_append_of_le_length (Nat.sub_le _ _)

theorem lastN_subset (n : Nat) (l : List α) : lastN n l ⊆ l :=
  List.drop_subset _ _

theorem lastN_of_le {n : Nat} {l : List α} (h : l.length ≤ n) : lastN n l = l := by
  unfold lastN
  rw [Nat.sub_eq_zero_of_le h, List.drop_zero]

theorem length_lastN (n : Nat) (l : List α) : (lastN n l).length = l.length - (l.length - n) := by
  unfold lastN
  rw [List.length_drop]

namespace AnomalyRoute

/-! ### Statistics helper lemmas -/

theorem varOf_nonneg (values : List ℝ) : 0 ≤ varOf values := by
  unfold varOf
  apply div_nonneg _ (by positivity)
  apply List.sum_nonneg
  intro x hx
  obtain ⟨v, _, rfl⟩ := List.mem_map.1 hx
  positivity

theorem mean_of_const {values : List ℝ} {c : ℝ} (hne : values ≠ [])
    (h : ∀ v ∈ values, v = c) : mean values = c := by
  have h0 : values.length ≠ 0 := by simpa [List.length_eq_zero] using hne
  have h0' : (values.length : ℝ) ≠ 0 := Nat.cast_ne_zero.2 h0
  rw [mean, List.sum_eq_card_nsmul values c h, nsmul_eq_mul]
  field_simp

theorem varOf_of_const {values : List ℝ} {c : ℝ} (hne : values ≠ [])
    (h : ∀ v ∈ values, v = c) : varOf values = 0 := by
  rw [varOf, mean_of_const hne h]
  have hz : (values.map fun v => (v - c) ^ 2).sum = 0 := by
    apply List.sum_eq_zero
    intro x hx
    obtain ⟨v, hv, rfl⟩ := List.mem_map.1 hx
    rw [h v hv]
    ring
  rw [hz, zero_div]

theorem detectMetric_none_of_const (hist : List NetworkData) (b : NetworkData)
    (m : Metric) (c : ℝ)
    (hne : (lastN 30 hist).map (fun d => d.get m) ≠ [])
    (hc : ∀ v ∈ (lastN 30 hist).map (fun d => d.get m), v = c) :
    detectMetric hist b m = none := by
  have hvar : varOf ((lastN 30 hist).map fun d => d.get m) = 0 := varOf_of_const hne hc
  have hsd : stdDev ((lastN 30 hist).map fun d => d.get m) < 0.1 := by
    rw [stdDev, hvar, Real.sqrt_zero]
    norm_num
  simp only [detectMetric]
  rw [if_pos hsd]

theorem specDetectMetric_none_of_const (win : List NetworkData) (b : NetworkData)
    (m : Metric) (c : ℝ)
    (hne : win.map (fun d => d.get m) ≠ [])
    (hc : ∀ v ∈ win.map (fun d => d.get m), v = c) :
    specDetectMetric win b m = none := by
  have hvar : varOf (win.map fun d => d.get m) = 0 := varOf_of_const hne hc
  have hsd : specPopStdDev (win.map fun d => d.get m) < 0.1 := by
    have : specPopStdDev (win.map fun d => d.get m)
        = Real.sqrt (varOf (win.map fun d => d.get m)) := rfl
    rw [this, hvar, Real.sqrt_zero]
    norm_num
  simp only [specDetectMetric]
  rw [if_pos hsd]

/-- Resolution of the per-metric detection when the value sits strictly
between 4.5 and 6 standard deviations above the window mean. -/
theorem detectMetric_eq_some_warning (hist : List NetworkData) (b : NetworkData)
    (m : Metric)
    (hX : 0 < b.get m - mean ((lastN 30 hist).map fun d => d.get m))
    (h01 : (0.1 : ℝ) ^ 2 ≤ varOf ((lastN 30 hist).map fun d => d.get m))
    (h45 : varOf ((lastN 30 hist).map fun d => d.get m)
      < ((b.get m - mean ((lastN 30 hist).map fun d => d.get m)) / 4.5) ^ 2)
    (h36 : ((b.get m - mean ((lastN 30 hist).map fun d => d.get m)) / 6) ^ 2
      ≤ varOf ((lastN 30 hist).map fun d => d.get m)) :
    detectMetric hist b m =
      some { timestamp := b.timestamp
             type := m.anomalyType
             severity := .warning
             source := "Anomaly Detection Engine"
             metrics := { threshold := jsRound (mean ((lastN 30 hist).map fun d => d.get m))
                          actualValue := b.get m
                          deviation := |jsRound ((b.get m - mean ((lastN 30 hist).map fun d => d.get m))
                            / mean ((lastN 30 hist).map fun d => d.get m) * 100)| } } := by
  set vals := (lastN 30 hist).map fun d => d.get m with hvals
  set X := b.get m - mean vals with hXdef
  have hvarpos : 0 < varOf vals := lt_of_lt_of_le (by norm_num) h01
  have hsdpos : 0 < stdDev vals := Real.sqrt_pos.2 hvarpos
  have hsd01 : ¬ stdDev vals < 0.1 := by
    rw [not_lt, stdDev]
    exact (Real.le_sqrt (by norm_num) (varOf_nonneg _)).2 h01
  have hz : zScoreOf (mean vals) (stdDev vals) (b.get m) = X / stdDev vals := by
    rw [zScoreOf, ← hXdef, abs_of_nonneg (div_nonneg hX.le hsdpos.le)]
  have hsdlt : stdDev vals < X / 4.5 := by
    rw [stdDev]
    exact (Real.sqrt_lt' (by positivity)).2 h45
  have hsdge : X / 6 ≤ stdDev vals := by
    rw [stdDev]
    exact (Real.le_sqrt (by positivity) (varOf_nonneg _)).2 h36
  have hz45 : 4.5 < X / stdDev vals := by
    rw [lt_div_iff₀ hsdpos]
    calc 4.5 * stdDev vals < 4.5 * (X / 4.5) := by
          exact mul_lt_mul_of_pos_left hsdlt (by norm_num)
    _ = X := by ring
  have hz6 : ¬ 6 < X / stdDev vals := by
    rw [not_lt, div_le_iff₀ hsdpos]
    calc X = 6 * (X / 6) := by ring
    _ ≤ 6 * stdDev vals := mul_le_mul_of_nonneg_left hsdge (by norm_num)
  have hz3 : ZSCORE_THRESHOLD < X / stdDev vals := by
    have h3 : ZSCORE_THRESHOLD = 3 := by norm_num [ZSCORE_THRESHOLD]
    rw [h3]
    linarith
  have hsev : severityOf (X / stdDev vals) = Severity.warning := by
    rw [severityOf]
    have h6 : ZSCORE_THRESHOLD * 2 = 6 := by norm_num [ZSCORE_THRESHOLD]
    have h45' : ZSCORE_THRESHOLD * 1.5 = 4.5 := by norm_num [ZSCORE_THRESHOLD]
    rw [h6, h45']
    rw [if_neg hz6, if_pos hz45]
  simp only [detectMetric, ← hvals]
  rw [hz, if_neg hsd01, if_pos hz3, hsev]

end AnomalyRoute

namespace AnomalyRoute

/-- Window arithmetic for 29 in-range values followed by the outlier 2000:
the deviation of the outlier is strictly between 4.5 and 6 window standard
deviations, and the window deviation clears the 0.1 guard. -/
theorem outlier_window_bounds (ws : List ℝ) (hlen : ws.length = 29)
    (hlo : ∀ w ∈ ws, 495 ≤ w) (hhi : ∀ w ∈ ws, w ≤ 505) :
    0 < 2000 - mean (ws ++ [2000]) ∧
    (0.1 : ℝ) ^ 2 ≤ varOf (ws ++ [2000]) ∧
    varOf (ws ++ [2000]) < ((2000 - mean (ws ++ [2000])) / 4.5) ^ 2 ∧
    ((2000 - mean (ws ++ [2000])) / 6) ^ 2 ≤ varOf (ws ++ [2000]) := by
  have hS_lo : (29 : ℝ) * 495 ≤ ws.sum := by
    have h := List.card_nsmul_le_sum ws 495 hlo
    rw [hlen] at h
    simpa [nsmul_eq_mul] using h
  have hS_hi : ws.sum ≤ (29 : ℝ) * 505 := by
    have h := List.sum_le_card_nsmul ws 505 hhi
    rw [hlen] at h
    simpa [nsmul_eq_mul] using h
  have hlen' : (ws ++ [2000] : List ℝ).length = 30 := by simp [hlen]
  have hmean : mean (ws ++ [2000]) = (ws.sum + 2000) / 30 := by
    rw [mean, hlen', List.sum_append]
    norm_num
  set mu := mean (ws ++ [2000]) with hmu
  have hmu_lo : (16355 : ℝ) / 30 ≤ mu := by rw [hmean]; linarith
  have hmu_hi : mu ≤ (16645 : ℝ) / 30 := by rw [hmean]; linarith
  set D := (ws.map fun v => (v - mu) ^ 2).sum with hD
  have hD0 : 0 ≤ D := by
    apply List.sum_nonneg
    intro x hx
    obtain ⟨w, _, rfl⟩ := List.mem_map.1 hx
    positivity
  have hDle : D ≤ 29 * (mu - 495) ^ 2 := by
    have hbound : ∀ x ∈ ws.map fun v => (v - mu) ^ 2, x ≤ (mu - 495) ^ 2 := by
      intro x hx
      obtain ⟨w, hw, rfl⟩ := List.mem_map.1 hx
      have h1 := hlo w hw
      have h2 := hhi w hw
      nlinarith
    have h := List.sum_le_card_nsmul _ _ hbound
    rw [List.length_map, hlen] at h
    simpa [nsmul_eq_mul] using h
  have hvar : varOf (ws ++ [2000]) = (D + (2000 - mu) ^ 2) / 30 := by
    rw [varOf, ← hmu, hlen', List.map_append, List.sum_append]
    norm_num
  have hXpos : 0 < 2000 - mu := by linarith
  refine ⟨hXpos, ?_, ?_, ?_⟩
  · rw [hvar, le_div_iff₀ (by norm_num : (0:ℝ) < 30)]
    nlinarith [sq_nonneg (2000 - mu - 43355 / 30)]
  · rw [hvar, div_pow,
      div_lt_div_iff (by norm_num : (0:ℝ) < 30) (by positivity)]
    nlinarith [mul_nonneg (sub_nonneg.2 hmu_lo) (sub_nonneg.2 hmu_hi)]
  · rw [hvar, div_pow,
      div_le_div_iff (by positivity) (by norm_num : (0:ℝ) < 30)]
    nlinarith [sq_nonneg (2000 - mu)]

end AnomalyRoute

namespace AnomalyRoute

/-- After 30 in-range samples, the outlier sample makes the
packets-per-second metric fire with severity `warning`. -/
theorem detectMetric_pps_outlier (samples : List NetworkData) (final : NetworkData)
    (hlen : samples.length = 30)
    (hlo : ∀ s ∈ samples, 495 ≤ s.packetsPerSecond)
    (hhi : ∀ s ∈ samples, s.packetsPerSecond ≤ 505)
    (hf : final.packetsPerSecond = 2000) :
    detectMetric (samples ++ [final]) final Metric.packetsPerSecond =
      some { timestamp := final.timestamp
             type := "traffic_spike"
             severity := .warning
             source := "Anomaly Detection Engine"
             metrics :=
               { threshold := jsRound (mean ((lastN 30 (samples ++ [final])).map
                   fun d => d.get Metric.packetsPerSecond))
                 actualValue := final.get Metric.packetsPerSecond
                 deviation := |jsRound ((final.get Metric.packetsPerSecond -
                     mean ((lastN 30 (samples ++ [final])).map
                       fun d => d.get Metric.packetsPerSecond)) /
                     mean ((lastN 30 (samples ++ [final])).map
                       fun d => d.get Metric.packetsPerSecond) * 100)| } } := by
  have hg : final.get Metric.packetsPerSecond = 2000 := hf
  set ws : List ℝ := (lastN 29 samples).map fun d => d.get Metric.packetsPerSecond with hws
  have hws_len : ws.length = 29 := by
    rw [hws, List.length_map, length_lastN, hlen]
  have hws_lo : ∀ w ∈ ws, 495 ≤ w := by
    intro w hw
    obtain ⟨d, hd, rfl⟩ := List.mem_map.1 hw
    exact hlo d (lastN_subset 29 samples hd)
  have hws_hi : ∀ w ∈ ws, w ≤ 505 := by
    intro w hw
    obtain ⟨d, hd, rfl⟩ := List.mem_map.1 hw
    exact hhi d (lastN_subset 29 samples hd)
  have hvals : (lastN 30 (samples ++ [final])).map
      (fun d => d.get Metric.packetsPerSecond) = ws ++ [(2000 : ℝ)] := by
    rw [show (30 : Nat) = 29 + 1 from rfl, lastN_append_singleton, List.map_append]
    simp [hg]
  obtain ⟨hX, h01, h45, h36⟩ := outlier_window_bounds ws hws_len hws_lo hws_hi
  have := detectMetric_eq_some_warning (samples ++ [final]) final Metric.packetsPerSecond
    (by rw [hvals, hg]; exact hX)
    (by rw [hvals]; exact h01)
    (by rw [hvals, hg]; exact h45)
    (by rw [hvals, hg]; exact h36)
  rw [this]
  rfl

end AnomalyRoute

namespace AnomalyRoute

/-- A metric that is constant across the window (including the new sample)
is skipped: its window standard deviation is zero. -/
theorem detectMetric_const_final (samples : List NetworkData) (final : NetworkData)
    (m : Metric) (c : ℝ) (hlen : samples.length = 30)
    (hc : ∀ s ∈ samples, s.get m = c) (hf : final.get m = c) :
    detectMetric (samples ++ [final]) final m = none := by
  apply detectMetric_none_of_const (samples ++ [final]) final m c
  · rw [show (30 : Nat) = 29 + 1 from rfl, lastN_append_singleton, List.map_append]
    simp
  · intro v hv
    rw [show (30 : Nat) = 29 + 1 from rfl, lastN_append_singleton, List.map_append] at hv
    rcases List.mem_append.1 hv with h | h
    · obtain ⟨d, hd, rfl⟩ := List.mem_map.1 h
      exact hc d (lastN_subset 29 samples hd)
    · rw [List.mem_singleton.1 h]
      exact hf

/-- The full detection result for the outlier scenario: exactly one anomaly,
a `traffic_spike` of severity `warning`. -/
theorem detect_final_outlier (samples : List NetworkData) (final : NetworkData)
    (cb cc ce : ℝ) (hlen : samples.length = 30)
    (hprops : ∀ s ∈ samples, 495 ≤ s.packetsPerSecond ∧ s.packetsPerSecond ≤ 505 ∧
      s.bandwidth = cb ∧ s.activeConnections = cc ∧ s.errorRate = ce)
    (hf1 : final.packetsPerSecond = 2000) (hf2 : final.bandwidth = cb)
    (hf3 : final.activeConnections = cc) (hf4 : final.errorRate = ce) :
    detectAnomalies (samples ++ [final]) final =
      [{ timestamp := final.timestamp
         type := "traffic_spike"
         severity := .warning
         source := "Anomaly Detection Engine"
         metrics :=
           { threshold := jsRound (mean ((lastN 30 (samples ++ [final])).map
               fun d => d.get Metric.packetsPerSecond))
             actualValue := final.get Metric.packetsPerSecond
             deviation := |jsRound ((final.get Metric.packetsPerSecond -
                 mean ((lastN 30 (samples ++ [final])).map
                   fun d => d.get Metric.packetsPerSecond)) /
                 mean ((lastN 30 (samples ++ [final])).map
                   fun d => d.get Metric.packetsPerSecond) * 100)| } }] := by
  have hpps := detectMetric_pps_outlier samples final hlen
    (fun s hs => (hprops s hs).1) (fun s hs => (hprops s hs).2.1) hf1
  have hbw := detectMetric_const_final samples final Metric.bandwidth cb hlen
    (fun s hs => (hprops s hs).2.2.1) hf2
  have hconn := detectMetric_const_final samples final Metric.activeConnections cc hlen
    (fun s hs => (hprops s hs).2.2.2.1) hf3
  have herr := detectMetric_const_final samples final Metric.errorRate ce hlen
    (fun s hs => (hprops s hs).2.2.2.2) hf4
  have hlen31 : ¬ (samples ++ [final]).length < 10 := by
    simp [hlen]
  rw [detectAnomalies, if_neg hlen31]
  rw [List.filterMap_cons, hpps, List.filterMap_cons, hbw,
    List.filterMap_cons, hconn, List.filterMap_cons, herr, List.filterMap_nil]

end AnomalyRoute

namespace AnomalyRoute

/-- Below the 1000 cap, `POST` appends the new sample to the history. -/
theorem POST_hist (st : RouteState) (b : NetworkData)
    (h : st.networkDataHistory.length ≤ 999) :
    (POST st b).1.networkDataHistory = st.networkDataHistory ++ [b] := by
  have hnot : ¬ (st.networkDataHistory ++ [b]).length > 1000 := by
    rw [List.length_append, List.length_singleton]
    omega
  simp only [POST]
  rw [if_neg hnot]

/-- Below the 1000 cap, the response's `anomaliesDetected` counts the
anomalies detected on the pushed history. -/
theorem POST_count (st : RouteState) (b : NetworkData)
    (h : st.networkDataHistory.length ≤ 999) :
    (POST st b).2 = (detectAnomalies (st.networkDataHistory ++ [b]) b).length := by
  have hnot : ¬ (st.networkDataHistory ++ [b]).length > 1000 := by
    rw [List.length_append, List.length_singleton]
    omega
  simp only [POST]
  rw [if_neg hnot]

/-- Feeding fewer than 10 samples in total leaves `detectedAnomalies`
untouched and just accumulates history. -/
theorem runPosts_short : ∀ (samples : List NetworkData) (st : RouteState),
    st.networkDataHistory.length + samples.length ≤ 9 →
    (runPosts st samples).networkDataHistory = st.networkDataHistory ++ samples ∧
    (runPosts st samples).detectedAnomalies = st.detectedAnomalies := by
  intro samples
  induction samples with
  | nil => intro st _; simp [runPosts]
  | cons b bs ih =>
      intro st h
      rw [List.length_cons] at h
      have hnot : ¬ (st.networkDataHistory ++ [b]).length > 1000 := by
        rw [List.length_append, List.length_singleton]
        omega
      have hlt : (st.networkDataHistory ++ [b]).length < 10 := by
        rw [List.length_append, List.length_singleton]
        omega
      have hdet : detectAnomalies (st.networkDataHistory ++ [b]) b = [] := by
        rw [detectAnomalies, if_pos hlt]
      have hPOST : (POST st b).1 = ⟨st.networkDataHistory ++ [b], st.detectedAnomalies⟩ := by
        simp only [POST]
        rw [if_neg hnot, hdet]
        simp
      have hrun : runPosts st (b :: bs) = runPosts (POST st b).1 bs := rfl
      rw [hrun, hPOST]
      have hih := ih ⟨st.networkDataHistory ++ [b], st.detectedAnomalies⟩
        (by rw [List.length_append, List.length_singleton]; omega)
      rcases hih with ⟨h1, h2⟩
      constructor
      · rw [h1]
        simp
      · exact h2

/-- Below the 1000 cap, feeding samples through `POST` accumulates exactly
those samples in history. -/
theorem runPosts_hist : ∀ (samples : List NetworkData) (st : RouteState),
    st.networkDataHistory.length + samples.length ≤ 1000 →
    (runPosts st samples).networkDataHistory = st.networkDataHistory ++ samples := by
  intro samples
  induction samples with
  | nil => intro st _; simp [runPosts]
  | cons b bs ih =>
      intro st h
      rw [List.length_cons] at h
      have hrun : runPosts st (b :: bs) = runPosts (POST st b).1 bs := rfl
      rw [hrun]
      have hh : (POST st b).1.networkDataHistory = st.networkDataHistory ++ [b] :=
        POST_hist st b (by omega)
      have hih := ih (POST st b).1 (by rw [hh, List.length_append, List.length_singleton]; omega)
      rw [hih, hh]
      simp

/-- Every sample of `hist30` is in range with the other metrics constant. -/
theorem hist30_props : ∀ s ∈ hist30, 495 ≤ s.packetsPerSecond ∧ s.packetsPerSecond ≤ 505 ∧
    s.bandwidth = 50 ∧ s.activeConnections = 100 ∧ s.errorRate = 1 := by
  intro s hs
  simp only [hist30, List.mem_replicate] at hs
  rw [hs.2]
  norm_num [s500]

theorem hist30_length : hist30.length = 30 := by simp [hist30]

/-- Concrete run of the detector: after thirty constant samples, the
2000-packets sample yields exactly the `warning` anomaly `aEx`. -/
theorem detect_concrete : detectAnomalies (hist30 ++ [sFinal]) sFinal = [aEx] := by
  have h := detect_final_outlier hist30 sFinal 50 100 1 hist30_length hist30_props
    (by norm_num [sFinal]) (by norm_num [sFinal]) (by norm_num [sFinal]) (by norm_num [sFinal])
  rw [h]
  rfl

/-- Concrete run of the per-metric detection for packets-per-second. -/
theorem detectMetric_concrete :
    detectMetric (hist30 ++ [sFinal]) sFinal Metric.packetsPerSecond = some aEx := by
  have h := detectMetric_pps_outlier hist30 sFinal hist30_length
    (fun s hs => (hist30_props s hs).1) (fun s hs => (hist30_props s hs).2.1)
    (by norm_num [sFinal])
  rw [h]
  rfl

/-- On the window of the thirty constant samples *preceding* `sFinal` (the
window the spec describes), every metric is constant, so the spec-modelled
detector emits nothing. -/
theorem specDetect_concrete : specDetect (lastN 30 hist30) sFinal = [] := by
  have hwin : lastN 30 hist30 = hist30 := lastN_of_le (by rw [hist30_length])
  have hc : ∀ (m : Metric) (c : ℝ), s500.get m = c →
      specDetectMetric hist30 sFinal m = none := by
    intro m c hc
    apply specDetectMetric_none_of_const hist30 sFinal m c
    · simp [hist30]
    · intro v hv
      obtain ⟨d, hd, rfl⟩ := List.mem_map.1 hv
      simp only [hist30, List.mem_replicate] at hd
      rw [hd.2, hc]
  rw [specDetect, hwin]
  rw [List.filterMap_cons, hc Metric.packetsPerSecond 500 rfl,
    List.filterMap_cons, hc Metric.bandwidth 50 rfl,
    List.filterMap_cons, hc Metric.activeConnections 100 rfl,
    List.filterMap_cons, hc Metric.errorRate 1 rfl, List.filterMap_nil]

end AnomalyRoute

namespace AnomalyRoute

/-- The route's per-metric detection is exactly the spec-modelled detection
run on the window of the last 30 samples of the *stored* history. -/
theorem specDetectMetric_window (hist : List NetworkData) (b : NetworkData) (m : Metric) :
    specDetectMetric (lastN 30 hist) b m = detectMetric hist b m := by
  have h6 : ZSCORE_THRESHOLD * 2 = 6.0 := by norm_num [ZSCORE_THRESHOLD]
  have h15 : ZSCORE_THRESHOLD * 1.5 = 4.5 := by norm_num [ZSCORE_THRESHOLD]
  simp only [specDetectMetric, detectMetric, severityOf, zScoreOf, h6, h15]
  rfl

/-- The route's detection equals the spec-modelled detection on the last 30
stored samples, once the cold-start guard has passed. -/
theorem specDetect_window (hist : List NetworkData) (b : NetworkData)
    (h : 10 ≤ hist.length) :
    detectAnomalies hist b = specDetect (lastN 30 hist) b := by
  rw [detectAnomalies, if_neg (by omega), specDetect]
  rw [funext (specDetectMetric_window hist b)]

/-- The new sample itself always belongs to the 30-sample window computed
from the pushed history. -/
theorem mem_lastN_self (l : List NetworkData) (b : NetworkData) :
    b ∈ lastN 30 (l ++ [b]) := by
  rw [show (30 : Nat) = 29 + 1 from rfl, lastN_append_singleton]
  exact List.mem_append_right _ (List.mem_singleton_self b)

end AnomalyRoute

namespace AnomalyRoute

/-- Extracting σ ≥ 0.1 from a fired per-metric detection. -/
theorem detectMetric_sigma {hist : List NetworkData} {b : NetworkData} {m : Metric}
    {a : Anomaly} (h : detectMetric hist b m = some a) :
    0.1 ≤ stdDev ((lastN 30 hist).map fun d => d.get m) := by
  by_contra hlt
  rw [not_le] at hlt
  simp only [detectMetric] at h
  rw [if_pos hlt] at h
  exact Option.noConfusion h

end AnomalyRoute

open AnomalyRoute in
/-- C1: the route's detector computes, per metric, the arithmetic mean and
the population standard deviation (divide by N) — but over the last 30
samples of the history *after* the new sample has been pushed, so the
window contains the new sample itself.  Amended from the claim's "window of
samples preceding the new sample, not containing it". -/
theorem c1_window_includes_new_sample (pre : List NetworkData) (da : List Anomaly)
    (b : NetworkData) (hlen : pre.length ≤ 999) (h9 : 9 ≤ pre.length) :
    (POST ⟨pre, da⟩ b).1.networkDataHistory = pre ++ [b] ∧
    (POST ⟨pre, da⟩ b).2 = (specDetect (lastN 30 (pre ++ [b])) b).length ∧
    detectAnomalies (pre ++ [b]) b = specDetect (lastN 30 (pre ++ [b])) b ∧
    b ∈ lastN 30 (pre ++ [b]) := by
  have h10 : 10 ≤ (pre ++ [b]).length := by
    rw [List.length_append, List.length_singleton]
    omega
  refine ⟨POST_hist ⟨pre, da⟩ b hlen, ?_, specDetect_window _ _ h10, mem_lastN_self pre b⟩
  rw [POST_count ⟨pre, da⟩ b hlen, specDetect_window _ _ h10]

open AnomalyRoute in
/-- C1 (counterexample): after thirty constant samples at 500, posting the
2000-packets sample makes the route report one anomaly, while the
spec-described computation — μ and σ over the last 30 samples *preceding*
the new sample — detects nothing (that window is constant, σ = 0). -/
theorem c1_counterexample :
    (POST ⟨hist30, []⟩ sFinal).2 = 1 ∧
    (specDetect (lastN 30 hist30) sFinal).length = 0 ∧
    (POST ⟨hist30, []⟩ sFinal).2 ≠ (specDetect (lastN 30 hist30) sFinal).length := by
  have hc : (POST ⟨hist30, []⟩ sFinal).2 = 1 := by
    rw [POST_count ⟨hist30, []⟩ sFinal (by rw [hist30_length]; norm_num)]
    rw [detect_concrete]
    rfl
  refine ⟨hc, by rw [specDetect_concrete]; rfl, ?_⟩
  rw [hc, specDetect_concrete]
  simp

open AnomalyRoute in
/-- C1 (witness): the amended window equation evaluated on the concrete
thirty-samples-then-outlier input. -/
theorem c1_witness :
    (POST ⟨hist30, []⟩ sFinal).1.networkDataHistory = hist30 ++ [sFinal] ∧
    (POST ⟨hist30, []⟩ sFinal).2 = (specDetect (lastN 30 (hist30 ++ [sFinal])) sFinal).length ∧
    detectAnomalies (hist30 ++ [sFinal]) sFinal = specDetect (lastN 30 (hist30 ++ [sFinal])) sFinal ∧
    sFinal ∈ lastN 30 (hist30 ++ [sFinal]) :=
  c1_window_includes_new_sample hist30 [] sFinal
    (by rw [hist30_length]; norm_num) (by rw [hist30_length]; norm_num)

open AnomalyRoute in
/-- C2: an anomaly is emitted only once the stored history holds at least 10
samples and only for a metric whose window standard deviation is at least
0.1 (so the division by σ is always guarded); feeding fewer than 10 samples
in total never emits any anomaly, degenerate conditions being skipped
silently. -/
theorem c2_cold_start_and_sigma_guard :
    (∀ (hist : List NetworkData) (b : NetworkData),
       hist.length < 10 → detectAnomalies hist b = []) ∧
    (∀ (hist : List NetworkData) (b : NetworkData) (a : Anomaly),
       a ∈ detectAnomalies hist b →
       10 ≤ hist.length ∧ ∃ m : Metric, detectMetric hist b m = some a ∧
         0.1 ≤ stdDev ((lastN 30 hist).map fun d => d.get m)) ∧
    (∀ samples : List NetworkData, samples.length ≤ 9 →
       (runPosts RouteState.empty samples).detectedAnomalies = [] ∧
       (runPosts RouteState.empty samples).networkDataHistory = samples) := by
  refine ⟨?_, ?_, ?_⟩
  · intro hist b h
    rw [detectAnomalies, if_pos h]
  · intro hist b a ha
    rw [detectAnomalies] at ha
    by_cases h : hist.length < 10
    · rw [if_pos h] at ha
      exact absurd ha (List.not_mem_nil a)
    · rw [if_neg h] at ha
      obtain ⟨m, _, hm⟩ := List.mem_filterMap.1 ha
      exact ⟨not_lt.1 h, m, hm, detectMetric_sigma hm⟩
  · intro samples h
    have := runPosts_short samples RouteState.empty (by simpa [RouteState.empty] using h)
    exact ⟨this.2, by simpa [RouteState.empty] using this.1⟩

open AnomalyRoute in
/-- C2 (witness): feeding a single sample emits nothing. -/
theorem c2_witness :
    (runPosts RouteState.empty [sFinal]).detectedAnomalies = [] ∧
    (runPosts RouteState.empty [sFinal]).networkDataHistory = [sFinal] :=
  c2_cold_start_and_sigma_guard.2.2 [sFinal] (by norm_num)

open AnomalyRoute in
/-- C3: every anomaly the detector emits carries — for its metric's window
mean μ, window deviation σ ≥ 0.1 and new value v with z = |(v − μ)/σ| > 3 —
severity critical when z > 6, warning when z > 4.5, info otherwise;
threshold = round(μ); actualValue = v; deviation = |round(((v − μ)/μ)·100)|;
the sample's own timestamp; and source "Anomaly Detection Engine". -/
theorem c3_anomaly_fields (hist : List NetworkData) (b : NetworkData) (m : Metric)
    (a : Anomaly) (h : detectMetric hist b m = some a) :
    0.1 ≤ stdDev ((lastN 30 hist).map fun d => d.get m) ∧
    3 < zScoreOf (mean ((lastN 30 hist).map fun d => d.get m))
      (stdDev ((lastN 30 hist).map fun d => d.get m)) (b.get m) ∧
    a.severity = (if 6 < zScoreOf (mean ((lastN 30 hist).map fun d => d.get m))
        (stdDev ((lastN 30 hist).map fun d => d.get m)) (b.get m) then Severity.critical
      else if 4.5 < zScoreOf (mean ((lastN 30 hist).map fun d => d.get m))
        (stdDev ((lastN 30 hist).map fun d => d.get m)) (b.get m) then Severity.warning
      else Severity.info) ∧
    a.metrics.threshold = jsRound (mean ((lastN 30 hist).map fun d => d.get m)) ∧
    a.metrics.actualValue = b.get m ∧
    a.metrics.deviation = |jsRound ((b.get m - mean ((lastN 30 hist).map fun d => d.get m))
      / mean ((lastN 30 hist).map fun d => d.get m) * 100)| ∧
    a.timestamp = b.timestamp ∧
    a.source = "Anomaly Detection Engine" ∧
    a.type = m.anomalyType := by
  have hs := detectMetric_sigma h
  simp only [detectMetric] at h
  rw [if_neg (not_lt.2 hs)] at h
  by_cases hz : zScoreOf (mean ((lastN 30 hist).map fun d => d.get m))
      (stdDev ((lastN 30 hist).map fun d => d.get m)) (b.get m) > ZSCORE_THRESHOLD
  · rw [if_pos hz] at h
    injection h with h
    subst h
    have h3 : (3 : ℝ) = ZSCORE_THRESHOLD := by norm_num [ZSCORE_THRESHOLD]
    have h6 : ZSCORE_THRESHOLD * 2 = 6 := by norm_num [ZSCORE_THRESHOLD]
    have h45 : ZSCORE_THRESHOLD * 1.5 = 4.5 := by norm_num [ZSCORE_THRESHOLD]
    refine ⟨hs, by rw [h3]; exact hz, ?_, rfl, rfl, rfl, rfl, rfl, rfl⟩
    simp only [severityOf, h6, h45]
  · rw [if_neg hz] at h
    exact Option.noConfusion h

open AnomalyRoute in
/-- C3 (witness): the field equations evaluated on the concretely emitted
anomaly `aEx`. -/
theorem c3_witness :
    0.1 ≤ stdDev ((lastN 30 (hist30 ++ [sFinal])).map fun d => d.get Metric.packetsPerSecond) ∧
    3 < zScoreOf (mean ((lastN 30 (hist30 ++ [sFinal])).map fun d => d.get Metric.packetsPerSecond))
      (stdDev ((lastN 30 (hist30 ++ [sFinal])).map fun d => d.get Metric.packetsPerSecond))
      (sFinal.get Metric.packetsPerSecond) ∧
    aEx.severity = (if 6 < zScoreOf (mean ((lastN 30 (hist30 ++ [sFinal])).map fun d => d.get Metric.packetsPerSecond))
        (stdDev ((lastN 30 (hist30 ++ [sFinal])).map fun d => d.get Metric.packetsPerSecond))
        (sFinal.get Metric.packetsPerSecond) then Severity.critical
      else if 4.5 < zScoreOf (mean ((lastN 30 (hist30 ++ [sFinal])).map fun d => d.get Metric.packetsPerSecond))
        (stdDev ((lastN 30 (hist30 ++ [sFinal])).map fun d => d.get Metric.packetsPerSecond))
        (sFinal.get Metric.packetsPerSecond) then Severity.warning
      else Severity.info) ∧
    aEx.metrics.threshold = jsRound (mean ((lastN 30 (hist30 ++ [sFinal])).map fun d => d.get Metric.packetsPerSecond)) ∧
    aEx.metrics.actualValue = sFinal.get Metric.packetsPerSecond ∧
    aEx.metrics.deviation = |jsRound ((sFinal.get Metric.packetsPerSecond -
        mean ((lastN 30 (hist30 ++ [sFinal])).map fun d => d.get Metric.packetsPerSecond))
      / mean ((lastN 30 (hist30 ++ [sFinal])).map fun d => d.get Metric.packetsPerSecond) * 100)| ∧
    aEx.timestamp = sFinal.timestamp ∧
    aEx.source = "Anomaly Detection Engine" ∧
    aEx.type = Metric.packetsPerSecond.anomalyType :=
  c3_anomaly_fields (hist30 ++ [sFinal]) sFinal Metric.packetsPerSecond aEx detectMetric_concrete

open AnomalyRoute in
/-- C4: for a fixed window mean and a standard deviation clearing the 0.1
guard, a new value at least as far from the mean gets at least as large a
z-score and a severity that never demotes. -/
theorem c4_zscore_monotone (mu sd v1 v2 : ℝ) (hsd : 0.1 ≤ sd)
    (h : |v1 - mu| ≤ |v2 - mu|) :
    zScoreOf mu sd v1 ≤ zScoreOf mu sd v2 ∧
    Severity.rank (severityOf (zScoreOf mu sd v1)) ≤
      Severity.rank (severityOf (zScoreOf mu sd v2)) := by
  have hsd0 : 0 < sd := lt_of_lt_of_le (by norm_num) hsd
  have hz : zScoreOf mu sd v1 ≤ zScoreOf mu sd v2 := by
    rw [zScoreOf, zScoreOf, abs_div, abs_div, abs_of_pos hsd0]
    gcongr
  refine ⟨hz, ?_⟩
  simp only [severityOf]
  split_ifs <;> simp [Severity.rank] <;> linarith

open AnomalyRoute in
/-- C4 (witness): the monotonicity at μ = 0, σ = 1, values 0 and 1. -/
theorem c4_witness :
    zScoreOf 0 1 0 ≤ zScoreOf 0 1 1 ∧
    Severity.rank (severityOf (zScoreOf 0 1 0)) ≤
      Severity.rank (severityOf (zScoreOf 0 1 1)) :=
  c4_zscore_monotone 0 1 0 1 (by norm_num) (by simp)

open AnomalyRoute in
/-- C5: feeding thirty samples with packets-per-second in [495, 505] (other
metrics constant) and then one sample with packets-per-second 2000 yields
exactly one anomaly for the final sample, of type traffic_spike — but of
severity warning, not critical: the window includes the outlier itself,
which caps the z-score at √29 < 6.  Amended from the claim's "severity
critical". -/
theorem c5_spike_warning (samples : List NetworkData) (final : NetworkData)
    (cb cc ce : ℝ) (hlen : samples.length = 30)
    (hprops : ∀ s ∈ samples, 495 ≤ s.packetsPerSecond ∧ s.packetsPerSecond ≤ 505 ∧
      s.bandwidth = cb ∧ s.activeConnections = cc ∧ s.errorRate = ce)
    (hf1 : final.packetsPerSecond = 2000) (hf2 : final.bandwidth = cb)
    (hf3 : final.activeConnections = cc) (hf4 : final.errorRate = ce) :
    (POST (runPosts RouteState.empty samples) final).2 = 1 ∧
    (detectAnomalies (samples ++ [final]) final).map (fun a => (a.type, a.severity))
      = [("traffic_spike", Severity.warning)] := by
  have hhist : (runPosts RouteState.empty samples).networkDataHistory = samples := by
    have h := runPosts_hist samples RouteState.empty
      (by simp [RouteState.empty, hlen])
    simpa [RouteState.empty] using h
  have hdet := detect_final_outlier samples final cb cc ce hlen hprops hf1 hf2 hf3 hf4
  constructor
  · rw [POST_count _ final (by rw [hhist, hlen]; norm_num), hhist, hdet]
    rfl
  · rw [hdet]
    rfl

open AnomalyRoute in
/-- C5 (counterexample): with the thirty samples all exactly 500 and the
final 2000-packets sample, the single emitted anomaly is a traffic_spike of
severity warning — not critical as the claim states. -/
theorem c5_counterexample :
    (detectAnomalies (hist30 ++ [sFinal]) sFinal).map (fun a => (a.type, a.severity))
      = [("traffic_spike", Severity.warning)] ∧
    ¬ (detectAnomalies (hist30 ++ [sFinal]) sFinal).map (fun a => (a.type, a.severity))
      = [("traffic_spike", Severity.critical)] := by
  have h : (detectAnomalies (hist30 ++ [sFinal]) sFinal).map (fun a => (a.type, a.severity))
      = [("traffic_spike", Severity.warning)] := by
    rw [detect_concrete]
    rfl
  refine ⟨h, ?_⟩
  rw [h]
  simp

open AnomalyRoute in
/-- C5 (witness): the amended scenario evaluated on the concrete input. -/
theorem c5_witness :
    (POST (runPosts RouteState.empty hist30) sFinal).2 = 1 ∧
    (detectAnomalies (hist30 ++ [sFinal]) sFinal).map (fun a => (a.type, a.severity))
      = [("traffic_spike", Severity.warning)] :=
  c5_spike_warning hist30 sFinal 50 100 1 hist30_length hist30_props
    (by norm_num [sFinal]) (by norm_num [sFinal]) (by norm_num [sFinal]) (by norm_num [sFinal])

namespace Manager

variable {D A S : Type}

theorem findSource_eq_lookup (st : DMState D A S) (id : String) :
    findSource st id = lookupProducer st.sources id := rfl

theorem updateRunning_pred (aid id : String) (r : Bool) :
    ((fun e : String × Producer => e.1 == id) ∘ fun e =>
      if e.1 == aid then (e.1, (⟨e.2.ty, r⟩ : Producer)) else e)
    = fun e : String × Producer => e.1 == id := by
  funext e
  by_cases h : (e.1 == aid) = true
  · simp [Function.comp, h]
  · simp [Function.comp, h]

theorem lookupProducer_update_hit (s : List (String × Producer)) (id : String) (r : Bool) :
    lookupProducer (updateRunning s id r) id
      = (lookupProducer s id).map fun p => ⟨p.ty, r⟩ := by
  rw [lookupProducer, updateRunning, List.find?_map, updateRunning_pred]
  cases hf : s.find? fun e => e.1 == id with
  | none => simp [lookupProducer, hf]
  | some e =>
      have hpe := List.find?_some hf
      have he1 : e.1 = id := by simpa using hpe
      simp [lookupProducer, hf, he1]

theorem lookupProducer_update_miss (s : List (String × Producer)) (aid id : String)
    (r : Bool) (h : ¬ id = aid) :
    lookupProducer (updateRunning s aid r) id = lookupProducer s id := by
  rw [lookupProducer, updateRunning, List.find?_map, updateRunning_pred]
  cases hf : s.find? fun e => e.1 == id with
  | none => simp [lookupProducer, hf]
  | some e =>
      have hpe := List.find?_some hf
      have he1 : e.1 = id := by simpa using hpe
      have hne : ¬ e.1 = aid := by rw [he1]; exact h
      simp [lookupProducer, hf, hne]

theorem keys_updateRunning (s : List (String × Producer)) (aid : String) (r : Bool) :
    (updateRunning s aid r).map Prod.fst = s.map Prod.fst := by
  rw [updateRunning, List.map_map]
  apply List.map_congr_left
  intro e _
  by_cases h : (e.1 == aid) = true
  · simp [Function.comp, h]
  · simp [Function.comp, h]

theorem hasSource_iff (st : DMState D A S) (id : String) :
    hasSource st id = true ↔ id ∈ st.sources.map Prod.fst := by
  rw [hasSource, List.any_eq_true]
  constructor
  · rintro ⟨e, he, hpe⟩
    have he1 : e.1 = id := by simpa using hpe
    exact List.mem_map.2 ⟨e, he, he1⟩
  · rintro hm
    obtain ⟨e, he, rfl⟩ := List.mem_map.1 hm
    exact ⟨e, he, by simp⟩

theorem hasSource_of_findSource {st : DMState D A S} {id : String} {p : Producer}
    (h : findSource st id = some p) : hasSource st id = true := by
  rw [findSource, Option.map_eq_some'] at h
  obtain ⟨e, he, _⟩ := h
  rw [hasSource, List.any_eq_true]
  have hpe := List.find?_some he
  exact ⟨e, List.mem_of_find?_eq_some he, hpe⟩

end Manager

theorem pushBounded_length_le {α : Type _} {cap : Nat} {l : List α} (h : l.length ≤ cap)
    (x : α) : (pushBounded cap l x).length ≤ cap := by
  rw [pushBounded]
  split
  · rw [List.length_tail, List.length_append, List.length_singleton]
    omega
  · rename_i hle
    rw [List.length_append, List.length_singleton] at hle ⊢
    omega

namespace Manager

variable {D A S : Type}

/-- The coordinator's reachable-state invariant: unique registry keys, a
registered (or absent) active id, at least one registration ever, and both
histories within their bounds. -/
structure Inv (st : DMState D A S) : Prop where
  nodup : (st.sources.map Prod.fst).Nodup
  active_mem : ∀ id, st.activeSource = some id → id ∈ st.sources.map Prod.fst
  ever_pos : 1 ≤ st.everAdded
  hist_le : st.dataHistory.length ≤ maxDataHistorySize
  anom_le : st.anomalyHistory.length ≤ maxAnomalyHistorySize

theorem inv_init : Inv (initState D A S) := by
  refine ⟨?_, ?_, ?_, ?_, ?_⟩ <;>
    simp [initState, addDataSource, hasSource, createDataSource, handleError,
      maxDataHistorySize, maxAnomalyHistorySize]

theorem inv_handleError {st : DMState D A S} (id : String) (e : String) (h : Inv st) :
    Inv (handleError st id e) :=
  ⟨h.nodup, h.active_mem, h.ever_pos, h.hist_le, h.anom_le⟩

theorem inv_handleStatusChange {st : DMState D A S} (id : String) (s : S) (h : Inv st) :
    Inv (handleStatusChange st id s) :=
  ⟨h.nodup, h.active_mem, h.ever_pos, h.hist_le, h.anom_le⟩

theorem inv_handleData {st : DMState D A S} (id : String) (d : D) (h : Inv st) :
    Inv (handleData st id d) := by
  rw [handleData]
  split
  · exact ⟨h.nodup, h.active_mem, h.ever_pos, pushBounded_length_le h.hist_le d, h.anom_le⟩
  · exact h

theorem inv_handleAnomaly {st : DMState D A S} (id : String) (a : A) (h : Inv st) :
    Inv (handleAnomaly st id a) := by
  rw [handleAnomaly]
  split
  · exact ⟨h.nodup, h.active_mem, h.ever_pos, h.hist_le, pushBounded_length_le h.anom_le a⟩
  · exact h

theorem inv_add {st : DMState D A S} (id : String) (ty : DataSourceType) (h : Inv st) :
    Inv (addDataSource st id ty).1 := by
  by_cases hc : hasSource st id
  · simp only [addDataSource, hc, if_true]
    exact inv_handleError id _ h
  · have hid : id ∉ st.sources.map Prod.fst := fun hm =>
      hc ((hasSource_iff st id).2 hm)
    simp only [addDataSource, hc, Bool.false_eq_true, if_false]
    refine ⟨?_, ?_, Nat.le_add_left 1 st.everAdded, h.hist_le, h.anom_le⟩
    · rw [List.map_append]
      refine List.Nodup.append h.nodup (List.nodup_singleton id) ?_
      intro a ha hma
      rw [List.mem_map] at hma
      obtain ⟨e, he, rfl⟩ := hma
      rw [List.mem_singleton.1 he] at ha
      exact hid ha
    · intro x hx
      rw [List.map_append]
      split at hx
      · rw [Option.some.injEq] at hx
        subst hx
        exact List.mem_append_right _ (by simp)
      · exact List.mem_append_left _ (h.active_mem x hx)

theorem inv_remove {st : DMState D A S} (id : String) (h : Inv st) :
    Inv (removeDataSource st id).1 := by
  rw [removeDataSource]
  cases hf : findSource st id with
  | none => exact h
  | some p =>
      simp only []
      refine ⟨?_, ?_, h.ever_pos, h.hist_le, h.anom_le⟩
      · exact ((List.filter_sublist _).map Prod.fst).nodup h.nodup
      · intro x hx
        split at hx
        · cases hh : (st.sources.filter fun e => !(e.1 == id)).head? with
          | none => rw [hh] at hx; exact Option.noConfusion hx
          | some e =>
              rw [hh] at hx
              rw [Option.map_some', Option.some.injEq] at hx
              subst hx
              exact List.mem_map.2 ⟨e, List.mem_of_mem_head? hh, rfl⟩
        · rename_i hne
          have hxold := h.active_mem x hx
          obtain ⟨e, he, rfl⟩ := List.mem_map.1 hxold
          have hxid : ¬ e.1 = id := by
            intro hcon
            exact hne (by rw [hx, hcon])
          refine List.mem_map.2 ⟨e, ?_, rfl⟩
          rw [List.mem_filter]
          exact ⟨he, by simpa using hxid⟩

theorem inv_setActive {st : DMState D A S} (id : String) (h : Inv st) :
    Inv (setActiveDataSource st id).1 := by
  rw [setActiveDataSource]
  split
  · rename_i hc
    have hkeys : ∀ (s1 : List (String × Producer)),
        s1.map Prod.fst = st.sources.map Prod.fst →
        ((updateRunning s1 id true).map Prod.fst) = st.sources.map Prod.fst := by
      intro s1 hs1
      rw [keys_updateRunning, hs1]
    have hinner : (match st.activeSource with
        | some aid => updateRunning st.sources aid false
        | none => st.sources).map Prod.fst = st.sources.map Prod.fst := by
      cases st.activeSource with
      | none => rfl
      | some aid => exact keys_updateRunning st.sources aid false
    refine ⟨?_, ?_, h.ever_pos, h.hist_le, h.anom_le⟩
    · rw [hkeys _ hinner]
      exact h.nodup
    · intro x hx
      rw [Option.some.injEq] at hx
      subst hx
      rw [hkeys _ hinner]
      exact (hasSource_iff _ _).1 hc
  · exact inv_handleError id _ h

theorem inv_start {st : DMState D A S} (id : String) (h : Inv st) :
    Inv (startDataSource st id).1 := by
  rw [startDataSource]
  split
  · refine ⟨?_, ?_, h.ever_pos, h.hist_le, h.anom_le⟩
    · rw [keys_updateRunning]; exact h.nodup
    · intro x hx
      rw [keys_updateRunning]
      exact h.active_mem x hx
  · exact inv_handleError id _ h

theorem inv_stop {st : DMState D A S} (id : String) (h : Inv st) :
    Inv (stopDataSource st id).1 := by
  rw [stopDataSource]
  split
  · refine ⟨?_, ?_, h.ever_pos, h.hist_le, h.anom_le⟩
    · rw [keys_updateRunning]; exact h.nodup
    · intro x hx
      rw [keys_updateRunning]
      exact h.active_mem x hx
  · exact inv_handleError id _ h

theorem inv_step {st st' : DMState D A S} (hs : Step st st') (h : Inv st) : Inv st' := by
  cases hs with
  | add id ty => exact inv_add id ty h
  | remove id => exact inv_remove id h
  | setActive id => exact inv_setActive id h
  | start id => exact inv_start id h
  | stop id => exact inv_stop id h
  | data id d => exact inv_handleData id d h
  | anomaly id a => exact inv_handleAnomaly id a h
  | status id s => exact inv_handleStatusChange id s h
  | error id e => exact inv_handleError id e h

theorem reachable_inv {st : DMState D A S} (h : Reachable st) : Inv st := by
  induction h with
  | refl => exact inv_init
  | tail _ hstep ih => exact inv_step hstep ih

end Manager

namespace Manager

variable {D A S : Type}

theorem countP_le_one_of_nodup_keys (sources : List (String × Producer)) (aid : String)
    (h : (sources.map Prod.fst).Nodup) :
    sources.countP (fun e => aid == e.1) ≤ 1 := by
  induction sources with
  | nil => simp
  | cons e es ih =>
      rw [List.map_cons, List.nodup_cons] at h
      by_cases hae : (aid == e.1) = true
      · rw [List.countP_cons_of_pos (fun x : String × Producer => aid == x.1) es hae]
        have hz : es.countP (fun e => aid == e.1) = 0 := by
          rw [List.countP_eq_zero]
          intro x hx hpx
          have h1 : aid = e.1 := by simpa using hae
          have h2 : aid = x.1 := by simpa using hpx
          exact h.1 (by rw [← h1, h2]; exact List.mem_map.2 ⟨x, hx, rfl⟩)
        omega
      · rw [List.countP_cons_of_neg (fun x : String × Producer => aid == x.1) es
          (by simpa using hae)]
        exact ih h.2

theorem countActive_le_one (st : DMState D A S)
    (h : (st.sources.map Prod.fst).Nodup) : countActive st ≤ 1 := by
  rw [countActive, getDataSources, List.countP_map]
  cases hact : st.activeSource with
  | none =>
      have hz : st.sources.countP
          ((fun e : String × Producer × Bool => e.2.2) ∘
            fun e => (e.1, e.2, (none : Option String) == some e.1)) = 0 := by
        rw [List.countP_eq_zero]
        intro x _ hpx
        exact Bool.noConfusion hpx
      rw [hz]
      omega
  | some aid =>
      have he : ((fun e : String × Producer × Bool => e.2.2) ∘
          fun e : String × Producer => (e.1, e.2, some aid == some e.1))
          = fun e : String × Producer => aid == e.1 := by
        funext e
        rfl
      rw [he]
      exact countP_le_one_of_nodup_keys st.sources aid h

/-- Postconditions of a successful `setActiveDataSource`. -/
theorem setActive_post {st : DMState D A S} {id : String} {p : Producer}
    (hf : findSource st id = some p) :
    (setActiveDataSource st id).2 = true ∧
    (setActiveDataSource st id).1.activeSource = some id ∧
    findSource (setActiveDataSource st id).1 id = some ⟨p.ty, true⟩ ∧
    (∀ prev q, st.activeSource = some prev → ¬ prev = id →
      findSource st prev = some q →
      findSource (setActiveDataSource st id).1 prev = some ⟨q.ty, false⟩) := by
  have hc := hasSource_of_findSource hf
  have hlook : lookupProducer st.sources id = some p := hf
  simp only [setActiveDataSource, hc, if_true]
  refine ⟨trivial, trivial, ?_, ?_⟩
  · rw [findSource_eq_lookup]
    show lookupProducer (updateRunning (match st.activeSource with
      | some aid => updateRunning st.sources aid false
      | none => st.sources) id true) id = some ⟨p.ty, true⟩
    rw [lookupProducer_update_hit]
    cases st.activeSource with
    | none =>
        rw [hlook]
        rfl
    | some aid =>
        dsimp only
        by_cases haid : id = aid
        · subst haid
          rw [lookupProducer_update_hit, hlook]
          rfl
        · rw [lookupProducer_update_miss _ _ _ _ haid, hlook]
          rfl
  · intro prev q hact hne hq
    rw [findSource_eq_lookup]
    show lookupProducer (updateRunning (match st.activeSource with
      | some aid => updateRunning st.sources aid false
      | none => st.sources) id true) prev = some ⟨q.ty, false⟩
    rw [lookupProducer_update_miss _ _ _ _ hne, hact]
    dsimp only
    rw [lookupProducer_update_hit]
    rw [show lookupProducer st.sources prev = some q from hq]
    rfl

end Manager

theorem lastN_cons_of_le (a : α) (l : List α) (n : Nat) (h : n ≤ l.length) :
    lastN n (a :: l) = lastN n l := by
  unfold lastN
  rw [List.length_cons, show l.length + 1 - n = (l.length - n) + 1 by omega,
    List.drop_succ_cons]

theorem pushBounded_at_cap {α : Type _} {cap : Nat} {l : List α} (h : l.length = cap)
    (hc : 1 ≤ cap) (x : α) : pushBounded cap l x = l.tail ++ [x] := by
  rw [pushBounded]
  rw [if_pos (by rw [List.length_append, List.length_singleton]; omega)]
  rw [List.tail_append_of_ne_nil]
  intro hnil
  rw [hnil] at h
  simp at h
  omega

theorem foldl_pushBounded {α : Type _} (cap : Nat) :
    ∀ (items acc : List α), acc.length ≤ cap →
    List.foldl (pushBounded cap) acc items = lastN cap (acc ++ items) := by
  intro items
  induction items with
  | nil =>
      intro acc h
      rw [List.foldl_nil, List.append_nil, lastN_of_le h]
  | cons x xs ih =>
      intro acc h
      rw [List.foldl_cons, ih _ (pushBounded_length_le h x), pushBounded]
      split
      · rename_i hgt
        have hlenx : (acc ++ [x]).length = cap + 1 := by
          rw [List.length_append, List.length_singleton] at hgt ⊢
          omega
        obtain ⟨hd, t, ht⟩ := List.exists_cons_of_ne_nil (l := acc ++ [x]) (by simp)
        rw [ht, List.tail_cons]
        have htl : t.length = cap := by
          rw [ht, List.length_cons] at hlenx
          omega
        calc lastN cap (t ++ xs)
            = lastN cap (hd :: (t ++ xs)) :=
              (lastN_cons_of_le hd (t ++ xs) cap
                (by rw [List.length_append]; omega)).symm
        _ = lastN cap ((hd :: t) ++ xs) := rfl
        _ = lastN cap (acc ++ x :: xs) := by rw [← ht, List.append_assoc]; rfl
      · rw [List.append_assoc]
        rfl

namespace Manager

variable {D A S : Type}

theorem handleData_fold (id : String) : ∀ (items : List D) (st : DMState D A S),
    st.activeSource = some id →
    (items.foldl (fun s d => handleData s id d) st).dataHistory
      = List.foldl (pushBounded maxDataHistorySize) st.dataHistory items := by
  intro items
  induction items with
  | nil => intro st _; rfl
  | cons d ds ih =>
      intro st h
      simp only [List.foldl_cons]
      have hD : handleData st id d = { st with
          dataHistory := pushBounded maxDataHistorySize st.dataHistory d,
          dataEvents := st.dataEvents ++ [d] } := by
        rw [handleData, if_pos h]
      rw [hD]
      exact ih _ h

theorem handleAnomaly_fold (id : String) : ∀ (items : List A) (st : DMState D A S),
    st.activeSource = some id →
    (items.foldl (fun s a => handleAnomaly s id a) st).anomalyHistory
      = List.foldl (pushBounded maxAnomalyHistorySize) st.anomalyHistory items := by
  intro items
  induction items with
  | nil => intro st _; rfl
  | cons a as ih =>
      intro st h
      simp only [List.foldl_cons]
      have hA : handleAnomaly st id a = { st with
          anomalyHistory := pushBounded maxAnomalyHistorySize st.anomalyHistory a,
          anomalyEvents := st.anomalyEvents ++ [a] } := by
        rw [handleAnomaly, if_pos h]
      rw [hA]
      exact ih _ h

end Manager

open Manager in
/-- C6: a data or anomaly event from a registered producer is appended to
the corresponding history and dispatched to the coordinator's subscribers
if and only if the producer's id equals the current active source (otherwise
the state is untouched), while status and error events from any registered
producer are always re-dispatched together with the producer's id. -/
theorem c6_event_filtering :
    ∀ (D A S : Type) (st : DMState D A S) (id : String) (p : Producer),
      findSource st id = some p →
      (∀ d : D, (st.activeSource = some id →
          handleData st id d = { st with
            dataHistory := pushBounded maxDataHistorySize st.dataHistory d,
            dataEvents := st.dataEvents ++ [d] }) ∧
        (¬ st.activeSource = some id → handleData st id d = st)) ∧
      (∀ a : A, (st.activeSource = some id →
          handleAnomaly st id a = { st with
            anomalyHistory := pushBounded maxAnomalyHistorySize st.anomalyHistory a,
            anomalyEvents := st.anomalyEvents ++ [a] }) ∧
        (¬ st.activeSource = some id → handleAnomaly st id a = st)) ∧
      (∀ s : S, handleStatusChange st id s
          = { st with statusEvents := st.statusEvents ++ [(id, s)] }) ∧
      (∀ e : String, handleError st id e
          = { st with errorEvents := st.errorEvents ++ [(id, e)] }) := by
  intro D A S st id p _
  refine ⟨fun d => ⟨fun h => ?_, fun h => ?_⟩,
    fun a => ⟨fun h => ?_, fun h => ?_⟩, fun s => rfl, fun e => rfl⟩
  · rw [handleData, if_pos h]
  · rw [handleData, if_neg h]
  · rw [handleAnomaly, if_pos h]
  · rw [handleAnomaly, if_neg h]

open Manager in
/-- C6 (witness): the dispatch equations evaluated on the fresh coordinator
and its built-in `"simulated"` producer. -/
theorem c6_witness :
    handleStatusChange (initState Unit Unit Unit) "simulated" ()
      = { initState Unit Unit Unit with
          statusEvents := (initState Unit Unit Unit).statusEvents ++ [("simulated", ())] } ∧
    handleData (initState Unit Unit Unit) "simulated" ()
      = { initState Unit Unit Unit with
          dataHistory := pushBounded maxDataHistorySize
            (initState Unit Unit Unit).dataHistory (),
          dataEvents := (initState Unit Unit Unit).dataEvents ++ [()] } :=
  have h := c6_event_filtering Unit Unit Unit (initState Unit Unit Unit) "simulated"
    ⟨DataSourceType.simulated, false⟩ rfl
  ⟨h.2.2.1 (), (h.1 ()).1 rfl⟩

open Manager in
/-- C7: in every reachable coordinator state at most one `getDataSources`
entry is flagged active; and a successful `setActiveDataSource id` returns
true, makes `id` the active source, leaves the new active producer running
(started if it was not), and leaves the previously active producer (when
different from `id`) stopped. -/
theorem c7_active_exclusive :
    ∀ (D A S : Type) (st : DMState D A S), Reachable st →
      countActive st ≤ 1 ∧
      (∀ (id : String) (p : Producer), findSource st id = some p →
        (setActiveDataSource st id).2 = true ∧
        (setActiveDataSource st id).1.activeSource = some id ∧
        findSource (setActiveDataSource st id).1 id = some ⟨p.ty, true⟩ ∧
        ∀ (prev : String) (q : Producer), st.activeSource = some prev → ¬ prev = id →
          findSource st prev = some q →
          findSource (setActiveDataSource st id).1 prev = some ⟨q.ty, false⟩) := by
  intro D A S st hr
  exact ⟨countActive_le_one st (reachable_inv hr).nodup, fun id p hf => setActive_post hf⟩

open Manager in
/-- C7 (witness): the exclusivity bound and the postconditions of
`setActiveDataSource "simulated"` on the fresh coordinator. -/
theorem c7_witness :
    countActive (initState Unit Unit Unit) ≤ 1 ∧
    (setActiveDataSource (initState Unit Unit Unit) "simulated").2 = true ∧
    (setActiveDataSource (initState Unit Unit Unit) "simulated").1.activeSource
      = some "simulated" ∧
    findSource (setActiveDataSource (initState Unit Unit Unit) "simulated").1 "simulated"
      = some ⟨DataSourceType.simulated, true⟩ :=
  have h := c7_active_exclusive Unit Unit Unit (initState Unit Unit Unit)
    Relation.ReflTransGen.refl
  have h2 := h.2 "simulated" ⟨DataSourceType.simulated, false⟩ rfl
  ⟨h.1, h2.1, h2.2.1, h2.2.2.1⟩

open Manager in
/-- C8: both histories are FIFO-bounded — in every reachable state the
sample history holds at most 3600 entries and the anomaly history at most
1000; appending to a history at capacity removes exactly the oldest entry;
and appending capacity + 1 items to an empty history leaves exactly the
last capacity items, the first-appended one gone and the order of the rest
preserved. -/
theorem c8_history_bounded :
    (∀ (D A S : Type) (st : DMState D A S), Reachable st →
      st.dataHistory.length ≤ 3600 ∧ st.anomalyHistory.length ≤ 1000) ∧
    (∀ (D A S : Type) (st : DMState D A S) (id : String) (d : D),
      st.activeSource = some id → st.dataHistory.length = 3600 →
      (handleData st id d).dataHistory = st.dataHistory.tail ++ [d]) ∧
    (∀ (D A S : Type) (st : DMState D A S) (id : String) (a : A),
      st.activeSource = some id → st.anomalyHistory.length = 1000 →
      (handleAnomaly st id a).anomalyHistory = st.anomalyHistory.tail ++ [a]) ∧
    (∀ (D A S : Type) (id : String) (items : List D) (st : DMState D A S),
      st.activeSource = some id → st.dataHistory = [] → items.length = 3601 →
      (items.foldl (fun s d => handleData s id d) st).dataHistory = items.tail) ∧
    (∀ (D A S : Type) (id : String) (items : List A) (st : DMState D A S),
      st.activeSource = some id → st.anomalyHistory = [] → items.length = 1001 →
      (items.foldl (fun s a => handleAnomaly s id a) st).anomalyHistory = items.tail) := by
  refine ⟨?_, ?_, ?_, ?_, ?_⟩
  · intro D A S st hr
    exact ⟨(reachable_inv hr).hist_le, (reachable_inv hr).anom_le⟩
  · intro D A S st id d hact hcap
    rw [handleData, if_pos hact]
    exact pushBounded_at_cap hcap (by omega) d
  · intro D A S st id a hact hcap
    rw [handleAnomaly, if_pos hact]
    exact pushBounded_at_cap hcap (by omega) a
  · intro D A S id items st hact hnil hlen
    rw [handleData_fold id items st hact, hnil,
      foldl_pushBounded maxDataHistorySize items [] (by simp [maxDataHistorySize])]
    rw [List.nil_append]
    unfold lastN
    rw [hlen]
    show List.drop 1 items = items.tail
    exact List.drop_one items
  · intro D A S id items st hact hnil hlen
    rw [handleAnomaly_fold id items st hact, hnil,
      foldl_pushBounded maxAnomalyHistorySize items [] (by simp [maxAnomalyHistorySize])]
    rw [List.nil_append]
    unfold lastN
    rw [hlen]
    show List.drop 1 items = items.tail
    exact List.drop_one items

open Manager in
/-- C9: a successful `addDataSource` appends the producer un-started and
marks it active exactly when the registry was empty at the time of the call
(the new source is the sole current entry) — not only when it is the very
first source ever registered.  Amended from the claim's "only the very
first source ever registered". -/
theorem c9_sole_entry_becomes_active :
    ∀ (D A S : Type) (st : DMState D A S) (id : String) (ty : DataSourceType),
      Reachable st →
      (addDataSource st id ty).2 = true →
      (addDataSource st id ty).1.sources = st.sources ++ [(id, ⟨ty, false⟩)] ∧
      (st.sources = [] → (addDataSource st id ty).1.activeSource = some id) ∧
      (¬ st.sources = [] →
        (addDataSource st id ty).1.activeSource = st.activeSource ∧
        ¬ (addDataSource st id ty).1.activeSource = some id) := by
  intro D A S st id ty hr hok
  by_cases hc : hasSource st id
  · exfalso
    simp [addDataSource, hc] at hok
  · have hid : id ∉ st.sources.map Prod.fst := fun hm => hc ((hasSource_iff st id).2 hm)
    simp only [addDataSource, hc, Bool.false_eq_true, if_false]
    refine ⟨rfl, ?_, ?_⟩
    · intro hnil
      rw [hnil]
      rfl
    · intro hne
      have hlen : ¬ (st.sources ++ [(id, createDataSource ty)]).length = 1 := by
        rw [List.length_append, List.length_singleton]
        have := List.length_pos.2 hne
        omega
      show (if (st.sources ++ [(id, createDataSource ty)]).length = 1
          then some id else st.activeSource) = st.activeSource ∧ _
      rw [if_neg hlen]
      refine ⟨rfl, ?_⟩
      intro hact
      exact hid ((reachable_inv hr).active_mem id hact)

open Manager in
/-- C9 (counterexample): remove the built-in source, then add a fresh one —
it is the second source ever registered, yet it becomes active merely by
being the sole current entry. -/
theorem c9_counterexample :
    (addDataSource (removeDataSource (initState Unit Unit Unit) "simulated").1
        "backup" DataSourceType.simulated).2 = true ∧
    (addDataSource (removeDataSource (initState Unit Unit Unit) "simulated").1
        "backup" DataSourceType.simulated).1.everAdded = 2 ∧
    (addDataSource (removeDataSource (initState Unit Unit Unit) "simulated").1
        "backup" DataSourceType.simulated).1.activeSource = some "backup" := by
  refine ⟨rfl, rfl, rfl⟩

open Manager in
/-- C9 (witness): adding to the non-empty fresh registry inserts the new
producer un-started and leaves it inactive. -/
theorem c9_witness :
    (addDataSource (initState Unit Unit Unit) "backup" DataSourceType.pcap).1.sources
      = (initState Unit Unit Unit).sources ++ [("backup", ⟨DataSourceType.pcap, false⟩)] ∧
    ¬ (addDataSource (initState Unit Unit Unit) "backup" DataSourceType.pcap).1.activeSource
      = some "backup" :=
  have h := c9_sole_entry_becomes_active Unit Unit Unit (initState Unit Unit Unit)
    "backup" DataSourceType.pcap Relation.ReflTransGen.refl rfl
  ⟨h.1, (h.2.2 (by simp [initState, addDataSource, hasSource])).2⟩

open Manager in
/-- C10: constructing the coordinator registers the built-in producer under
the fixed id "simulated", of the simulated source type; once that
registration's (asynchronous, sequentially completed) initialization is
done the built-in source is active, the registry is non-empty, and every
subsequently added source is at least the second one ever registered. -/
theorem c10_builtin_simulated :
    ∀ (D A S : Type),
      (initState D A S).sources.map Prod.fst = ["simulated"] ∧
      findSource (initState D A S) "simulated" = some ⟨DataSourceType.simulated, false⟩ ∧
      (initState D A S).activeSource = some "simulated" ∧
      (initState D A S).everAdded = 1 ∧
      (∀ st : DMState D A S, Reachable st →
        ∀ (id : String) (ty : DataSourceType),
          (addDataSource st id ty).2 = true →
          2 ≤ (addDataSource st id ty).1.everAdded) := by
  intro D A S
  refine ⟨rfl, rfl, rfl, rfl, ?_⟩
  intro st hr id ty hok
  by_cases hc : hasSource st id
  · exfalso
    simp [addDataSource, hc] at hok
  · have h1 := (reachable_inv hr).ever_pos
    simp only [addDataSource, hc, Bool.false_eq_true, if_false]
    show 2 ≤ st.everAdded + 1
    omega
